import Mathlib

/-!
Verification development for the FuckBilibiliComments repository
(comment acquisition and reconciliation pipeline).

The Python source is shallowly embedded: pure functions become Lean
functions, HTTP traffic is modelled by explicit response oracles passed in
as arguments, and the dictionary-shaped comment records become structures.
Machine integers are `Nat`/`Int` (Python integers are unbounded, so no
wrap-around modelling is needed).
-/

namespace FBC

/-! ## Identity codec (`bvid_to_aid` / `aid_to_bvid`)

Constants from the source (`XOR_CODE`, `MASK_CODE`, `MAX_AID`, `MIN_AID`,
`BASE`, `BV_LEN`, `ALPHABET`, `REVERSE_DICT`). -/

def XOR_CODE : Nat := 23442827791579

def MASK_CODE : Nat := 2251799813685247

def MAX_AID : Nat := 2251799813685248

def MIN_AID : Nat := 1

def BASE : Nat := 58

def BV_LEN : Nat := 12

def ALPHABET : List Char :=
  "FcwAPNKTMug3GV5Lj7EJnHpWsx4tb8haYeviqBz6rkCy12mUSDQX9RdoZf".toList

/-- Indexing `ALPHABET[d]`; the source indexes with `aid % BASE`, always in range. -/
def alphaChar (d : Nat) : Char := ALPHABET.getD d 'F'

/-- Index of the first occurrence of `c` in a character list. -/
def idxOf (c : Char) : List Char → Option Nat
  | [] => none
  | a :: rest => if a = c then some 0 else (idxOf c rest).map (· + 1)

/-- Lookup in `REVERSE_DICT`: the entry for `c` when present (`ALPHABET` has no
duplicate characters, so first-occurrence index equals the dict entry). -/
def revLookup (c : Char) : Option Nat := idxOf c ALPHABET

/-- The Python simultaneous swap `l[i], l[j] = l[j], l[i]`. -/
def swap2 (l : List α) (i j : Nat) (d : α) : List α :=
  (l.set i (l.getD j d)).set j (l.getD i d)

/-- Python `str.upper` restricted to the ASCII letters (the only
characters the codec ever compares after uppercasing). -/
def pyUpper (c : Char) : Char :=
  match c with
  | 'a' => 'A' | 'b' => 'B' | 'c' => 'C' | 'd' => 'D' | 'e' => 'E'
  | 'f' => 'F' | 'g' => 'G' | 'h' => 'H' | 'i' => 'I' | 'j' => 'J'
  | 'k' => 'K' | 'l' => 'L' | 'm' => 'M' | 'n' => 'N' | 'o' => 'O'
  | 'p' => 'P' | 'q' => 'Q' | 'r' => 'R' | 's' => 'S' | 't' => 'T'
  | 'u' => 'U' | 'v' => 'V' | 'w' => 'W' | 'x' => 'X' | 'y' => 'Y'
  | 'z' => 'Z' | other => other

/-- The check `bvid.upper().startswith(BV1)` (only the first three characters
matter for the test). -/
def startsBV1 : List Char → Bool
  | b :: v :: o :: _ => pyUpper b == 'B' && pyUpper v == 'V' && pyUpper o == '1'
  | _ => false

/-- The base-58 encoding loop of `aid_to_bvid`:
`for i in range(BV_LEN - 1, 2, -1): if aid == 0: break;
 bvid[i] = ALPHABET[aid % BASE]; aid //= BASE`.
Cells are `List Char` so that the initial empty-string entries are `[]`. -/
def fillCells : Nat → List Nat → List (List Char) → List (List Char)
  | _, [], cells => cells
  | a, i :: rest, cells =>
    if a = 0 then cells
    else fillCells (a / BASE) rest (cells.set i [alphaChar (a % BASE)])

/-- Initial cell array `['B', 'V', '1'] + [''] * 9`. -/
def initCells : List (List Char) :=
  [['B'], ['V'], ['1'], [], [], [], [], [], [], [], [], []]

/-- Source `aid_to_bvid`: AV number to BV display id, `none` models Python `None`.
The display id is modelled as the list of its characters (the join). -/
def aid_to_bvid (aid : Nat) : Option (List Char) :=
  if aid < MIN_AID ∨ MAX_AID ≤ aid then none
  else some (List.flatten (swap2 (swap2
    (fillCells ((MAX_AID ||| aid) ^^^ XOR_CODE) [11, 10, 9, 8, 7, 6, 5, 4, 3]
      initCells) 3 9 []) 4 7 []))

/-- The base-58 decoding loop of `bvid_to_aid`
(`aid = aid * BASE + REVERSE_DICT[char]`, `None` on a character outside
the alphabet). -/
def b58fold : List Char → Nat → Option Nat
  | [], acc => some acc
  | c :: rest, acc =>
    match revLookup c with
    | none => none
    | some d => b58fold rest (acc * BASE + d)

/-- Source `bvid_to_aid`: BV display id to AV number, `none` models Python `None`. -/
def bvid_to_aid (bvid : List Char) : Option Nat :=
  if bvid.length ≠ BV_LEN then none
  else if ¬ startsBV1 bvid then none
  else
    match b58fold ((swap2 (swap2 bvid 3 9 'F') 4 7 'F').drop 3) 0 with
    | none => none
    | some a =>
      if MAX_AID <<< 1 ≤ a ∨ a < MAX_AID then none
      else some ((a &&& MASK_CODE) ^^^ XOR_CODE)

/-- Case normalization of a display id: uppercase the two letters of the
`BV` prefix (the only case freedom `bvid_to_aid` accepts). -/
def normBV : List Char → List Char
  | c0 :: c1 :: rest => pyUpper c0 :: pyUpper c1 :: rest
  | l => l

/-! ## Data model

A raw comment entry as delivered by the platform API (the subset of JSON
fields the pipeline reads).  The source stores the id both as the integer
`rpid` and the string `rpid_str`; the id is modelled once, as a string.
`location` models `reply_control.location` with the `未知地区` default
already applied, `parentMemberName` models `parent_reply_member.name`. -/
structure RawEntry where
  rpid : String
  uname : String
  message : String
  like : Nat
  rcount : Nat
  ctime : Int
  location : String
  sex : String
  level : Nat
  parent : String
  parentMemberName : Option String
deriving DecidableEq

/-- A top-level entry of a comments page: the scalar fields plus the
`reply_control.sub_reply_entry_text` hint and the bounded inline sample of
threaded replies (the `replies` field of the entry). -/
structure TopEntry where
  base : RawEntry
  subReplyEntryText : List Char
  replies : List RawEntry
deriving DecidableEq

/-- The flattened comment dictionary built by `process_single_comment`.
`发布时间` is a fixed-format rendering of `时间戳` and is not modelled
separately.  `爬取时间` is a fixed-format rendering of the crawl clock that
the deduplication code parses back with `strptime` of the same format; it
is modelled by that parse result (`none` = empty or unparseable string).
`dupSource`/`origSource` model the `重复来源`/`原始评论来源` keys added to
duplicate copies (absent on freshly flattened records). -/
structure Comment where
  mainFloor : Option Nat
  subFloor : Nat
  username : String
  content : String
  replyTo : String
  likeCount : Nat
  replyCount : Nat
  timestamp : Int
  level : Nat
  location : String
  sex : String
  commentType : String
  rpid : String
  parent : String
  crawlTime : Option Int
  dupSource : Option String
  origSource : Option String
deriving DecidableEq

/-- The Python replacement of every occurrence of `IP属地：` by the empty
string (left-to-right, non-overlapping). -/
def removeIPMarker : List Char → List Char
  | [] => []
  | c :: rest =>
    if (c :: rest).take 5 = ['I', 'P', '属', '地', '：'] then
      removeIPMarker ((c :: rest).drop 5)
    else c :: removeIPMarker rest
termination_by l => l.length
decreasing_by
  · simp [List.length_drop]
    omega
  · simp

/-- The IP-region cleanup at the top of `process_single_comment`. -/
def cleanLocation (loc : String) : String :=
  if loc.startsWith "IP属地：" then String.mk (removeIPMarker loc.toList)
  else loc

/-- Source `process_single_comment`: one raw entry to one comment dictionary.
`now` is the crawl clock (`datetime.now()`) in whole seconds, the
resolution of the `爬取时间` format. -/
def process_single_comment (reply : RawEntry) (main_floor_num : Option Nat)
    (sub_floor_num : Nat) (is_sub_reply : Bool) (now : Int) : Comment :=
  { mainFloor := main_floor_num
    subFloor := sub_floor_num
    username := reply.uname
    content := reply.message
    replyTo :=
      if is_sub_reply then
        match reply.parentMemberName with
        | some n => "@" ++ n
        | none => ""
      else ""
    likeCount := reply.like
    replyCount := reply.rcount
    timestamp := reply.ctime
    level := reply.level
    location := cleanLocation reply.location
    sex := reply.sex
    commentType := if is_sub_reply then "楼中楼回复" else "主楼评论"
    rpid := reply.rpid
    parent := reply.parent
    crawlTime := some now
    dupSource := none
    origSource := none }

/-- Python `enumerate(xs, start)` composed with a map. -/
def enumMap (f : Nat → RawEntry → Comment) : Nat → List RawEntry → List Comment
  | _, [] => []
  | i, r :: rest => f i r :: enumMap f (i + 1) rest

/-- Result of one reply-thread page request, as observed by
`get_all_sub_replies`: `error` covers a network exception and a non-2xx
status (`raise_for_status`), `envelope` carries the `code` field and
`data.replies`. -/
inductive SubFetch where
  | error
  | envelope (code : Int) (replies : List RawEntry)

/-- The reply-thread HTTP oracle: root rpid and page number to response. -/
def SubSource : Type := String → Nat → SubFetch

/-- The page loop of `get_all_sub_replies` over the page numbers it plans
to request.  On the first requested page with a positive skip count the
already-held replies are dropped; a short page (measured AFTER that drop,
exactly as the source does) or any error stops the loop, keeping what was
fetched. -/
def subRepliesLoop (src : SubSource) (root : String) (skip : Nat)
    (startPage : Nat) : List Nat → List RawEntry
  | [] => []
  | page :: rest =>
    match src root page with
    | .error => []
    | .envelope code replies =>
      if code = 0 then
        let pageReplies :=
          if page = startPage ∧ 0 < skip then replies.drop (skip % 20)
          else replies
        if pageReplies.length < 20 then pageReplies
        else pageReplies ++ subRepliesLoop src root skip startPage rest
      else []

/-- Source `get_all_sub_replies`: fetch the threaded replies of one top-level
comment (page size 20), skipping `skip_count` already-held replies.
`total_replies` is `Int` because the page-count arithmetic uses Python
floor division on a possibly negative difference. -/
def get_all_sub_replies (src : SubSource) (root_rpid oid : String)
    (total_replies : Int) (skip_count : Nat) : List RawEntry :=
  if root_rpid = "" ∨ oid = "" ∨ total_replies ≤ 0 then []
  else
    subRepliesLoop src root_rpid skip_count (skip_count / 20 + 1)
      (List.range' (skip_count / 20 + 1)
        (((total_replies - skip_count - 1).fdiv 20 + 1).toNat))

/-- The containment test `条回复 in sub_reply_entry_text` (with the Python
truthiness check on the string subsumed: the empty string contains no such
substring). -/
def hasTHF : List Char → Bool
  | [] => false
  | c :: rest => ((c :: rest).take 3 == ['条', '回', '复']) || hasTHF rest

/-- Maximal leading run of decimal digits (`\d+` is greedy).  The Python
`\d` also accepts non-ASCII Unicode digits; the hint strings of the platform
only carry ASCII digits, which is what is modelled. -/
def takeDigits : List Char → List Char × List Char
  | [] => ([], [])
  | c :: rest =>
    if c.isDigit then
      let p := takeDigits rest
      (c :: p.1, p.2)
    else ([], c :: rest)

/-- Python `int()` of a digit string. -/
def digitsToNat (ds : List Char) : Nat :=
  ds.foldl (fun a c => a * 10 + (c.toNat - 48)) 0

/-- Attempt to match `共(\d+)条回复` at the head of the text.  The greedy
digit run needs no backtracking: a shorter run would leave a digit, not
`条`, as the next character. -/
def matchGongAt : List Char → Option Nat
  | '共' :: rest =>
    let p := takeDigits rest
    if p.1 ≠ [] ∧ p.2.take 3 = ['条', '回', '复'] then some (digitsToNat p.1)
    else none
  | _ => none

/-- Python `re.search` of the pattern `共(\d+)条回复`: leftmost match. -/
def searchGong : List Char → Option Nat
  | [] => none
  | c :: rest =>
    match matchGongAt (c :: rest) with
    | some n => some n
    | none => searchGong rest

/-- Source `process_comments_page`: flatten one page of top-level entries.  Per
entry: emit the main record; then, if the hint text contains `条回复`,
parse `共N条回复` and (when it parses) discard the inline sample and fetch
the whole thread; otherwise flatten the inline sample, fetching the
additional replies beyond it when `rcount` exceeds it; otherwise, with a
positive `rcount` and no inline sample, fetch the whole thread. -/
def process_comments_page (src : SubSource) (oid : String) (now : Int) :
    List TopEntry → Nat → List Comment
  | [], _ => []
  | reply :: rest, i =>
    (process_single_comment reply.base (some i) 0 false now ::
      (if hasTHF reply.subReplyEntryText then
        match searchGong reply.subReplyEntryText with
        | some total_replies =>
          enumMap (fun j sr => process_single_comment sr none j true now) 1
            (get_all_sub_replies src reply.base.rpid oid (total_replies : Int) 0)
        | none => []
      else if reply.replies ≠ [] then
        enumMap (fun j sr => process_single_comment sr none j true now) 1
          reply.replies ++
        (if reply.replies.length < reply.base.rcount then
          enumMap (fun k sr => process_single_comment sr none k true now)
            (reply.replies.length + 1)
            (get_all_sub_replies src reply.base.rpid oid
              (reply.base.rcount : Int) reply.replies.length)
        else [])
      else if 0 < reply.base.rcount then
        enumMap (fun j sr => process_single_comment sr none j true now) 1
          (get_all_sub_replies src reply.base.rpid oid
            (reply.base.rcount : Int) 0)
      else [])) ++
    process_comments_page src oid now rest (i + 1)

/-- Spec-side description for the flattening-order property: the reply
records attributed to one top-level entry, as ONE list in the order the
page or the supplementary fetch delivered them (the inline sample, when
used, followed by the additionally fetched replies).  It selects among
the same cases as the source, but says nothing about record numbering or
interleaving; the order theorem states that the flattener emits exactly
this list per entry, numbered consecutively, right after the top-level
record. -/
def deliveredReplies (src : SubSource) (oid : String) (reply : TopEntry) :
    List RawEntry :=
  if hasTHF reply.subReplyEntryText then
    match searchGong reply.subReplyEntryText with
    | some total_replies =>
      get_all_sub_replies src reply.base.rpid oid (total_replies : Int) 0
    | none => []
  else if reply.replies ≠ [] then
    reply.replies ++
      (if reply.replies.length < reply.base.rcount then
        get_all_sub_replies src reply.base.rpid oid
          (reply.base.rcount : Int) reply.replies.length
      else [])
  else if 0 < reply.base.rcount then
    get_all_sub_replies src reply.base.rpid oid (reply.base.rcount : Int) 0
  else []

/-! ## Page fetcher and crawl drivers -/

/-- The parsed body of a comments-page response
(`{code, message, data: {replies, cursor: {next, is_end}}}`). -/
structure Envelope where
  code : Int
  message : String
  replies : List TopEntry
  next : String
  isEnd : Bool
deriving DecidableEq

/-- One HTTP attempt as seen by `get_bilibili_comments`: either the
request call itself raises (`requests.exceptions.RequestException`) or a
response with a status code arrives. -/
inductive HttpAttempt where
  | response (status : Nat) (body : Envelope)
  | exception

/-- What `get_bilibili_comments` does with one attempt: return the parsed
body, raise `CookieBannedException`, or return `None`. -/
inductive FetchOutcome where
  | result (body : Envelope)
  | banned
  | noneResult
deriving DecidableEq

/-- Source `get_bilibili_comments`, response handling only (request building,
signing and logging have no effect on the classification).  The source
calls `response.raise_for_status()` BEFORE looking at the status code;
for any 4xx/5xx status (412 included) that call raises `HTTPError`, a
subclass of `RequestException`, so control jumps to the generic handler
which returns `None`.  Only then would the source compare the status
against 200 and 412. -/
def get_bilibili_comments (attempt : HttpAttempt) : FetchOutcome :=
  match attempt with
  | .exception => .noneResult
  | .response status body =>
    if 400 ≤ status ∧ status < 600 then .noneResult
    else if status = 200 then .result body
    else if status = 412 then .banned
    else .noneResult

/-- Whether an outcome is the raised `CookieBannedException`. -/
def isBanned : FetchOutcome → Bool
  | .banned => true
  | _ => false

/-- Result of a crawl-driver run: normal termination with a reason, the
propagated `CookieBannedException`, or exhaustion of the prepared
response oracle (the source loop would keep requesting). -/
inductive CrawlOutcome where
  | done (comments : List Comment) (reason : String) (requests : Nat)
  | bannedAbort (requests : Nat)
  | outOfPages (comments : List Comment) (requests : Nat)
deriving DecidableEq

/-- Source `crawl_all_comments_with_reason`: the full-crawl driver.  Consumes
successive fetch attempts; stops on a `None` result, a non-zero envelope
code or an empty reply list; otherwise flattens and appends the page and
continues — the `is_end` flag of the cursor is never consulted (only
`cursor.next` is read, for the next request).  `acc`/`req` carry the
accumulated comments and the number of requests issued. -/
def crawl_all_comments_with_reason (src : SubSource) (oid : String)
    (now : Int) (test_mode : Bool) :
    List HttpAttempt → List Comment → Nat → CrawlOutcome
  | [], acc, req => .outOfPages acc req
  | attempt :: rest, acc, req =>
    match get_bilibili_comments attempt with
    | .banned => .bannedAbort (req + 1)
    | .noneResult => .done acc "API请求失败" (req + 1)
    | .result env =>
      if env.code ≠ 0 then
        .done acc ("API返回错误: " ++ env.message) (req + 1)
      else if env.replies = [] then .done acc "评论已全部爬取完毕" (req + 1)
      else
        if test_mode then
          .done (acc ++ process_comments_page src oid now env.replies
            (acc.length + 1)) "测试模式限制" (req + 1)
        else
          crawl_all_comments_with_reason src oid now test_mode rest
            (acc ++ process_comments_page src oid now env.replies
              (acc.length + 1)) (req + 1)

/-- Source `crawl_test_mode_comments`: the bounded test-mode driver.  Same page
handling, but the page counter is capped by `max_pages` and the cursor
flag `is_end` IS honoured (`has_more` is its negation), so a page with
`is_end` true is flattened, appended, and the
pass ends with the exhausted reason. -/
def crawl_test_mode_comments (src : SubSource) (oid : String) (now : Int)
    (max_pages : Nat) :
    List HttpAttempt → List Comment → Nat → Nat → CrawlOutcome
  | [], acc, cur, req =>
    if max_pages < cur then .done acc "已达到指定页数限制" req
    else .outOfPages acc req
  | attempt :: rest, acc, cur, req =>
    if max_pages < cur then .done acc "已达到指定页数限制" req
    else
      match get_bilibili_comments attempt with
      | .banned => .bannedAbort (req + 1)
      | .noneResult => .done acc "当前页无评论数据" (req + 1)
      | .result env =>
        if env.replies = [] then .done acc "当前页无评论数据" (req + 1)
        else
          if env.isEnd then
            .done (acc ++ process_comments_page src oid now env.replies
              (acc.length + 1)) "评论已全部爬取完毕" (req + 1)
          else
            crawl_test_mode_comments src oid now max_pages rest
              (acc ++ process_comments_page src oid now env.replies
                (acc.length + 1)) (cur + 1) (req + 1)

/-! ## Reconciliation engine -/

/-- Source `extract_crawl_time_from_filename`: parse the `爬取时间` string
(modelled by its parse result), falling back to the field `时间戳`. -/
def extract_crawl_time_from_filename (c : Comment) : Int :=
  match c.crawlTime with
  | some t => t
  | none => c.timestamp

/-- Python `comment.copy()` plus the `重复来源`/`原始评论来源` annotations. -/
def annotate (ctype : String) (c : Comment) : Comment :=
  { c with dupSource := some ctype, origSource := some ctype }

/-- Lookup in the insertion-ordered dictionary `rpid_to_comment`. -/
def dictFind (k : String) : List (String × Comment) → Option Comment
  | [] => none
  | kv :: rest => if kv.1 = k then some kv.2 else dictFind k rest

/-- Assignment `d[k] = v` on a Python dict: update in place when the key exists
(keeping its position), otherwise append. -/
def dictSet (k : String) (v : Comment) :
    List (String × Comment) → List (String × Comment)
  | [] => [(k, v)]
  | kv :: rest => if kv.1 = k then (k, v) :: rest else kv :: dictSet k v rest

/-- One step of the `deduplicate_by_rpid` loop: skip records with a falsy
rpid; on a collision keep the record with the strictly later extracted
crawl time (ties keep the incumbent) and append an annotated copy of the
loser to the duplicates list. -/
def dedupStep (ctype : String) (st : List (String × Comment) × List Comment)
    (c : Comment) : List (String × Comment) × List Comment :=
  if c.rpid = "" then st
  else
    match dictFind c.rpid st.1 with
    | some existing =>
      if extract_crawl_time_from_filename existing <
          extract_crawl_time_from_filename c then
        (dictSet c.rpid c st.1, st.2 ++ [annotate ctype existing])
      else (st.1, st.2 ++ [annotate ctype c])
    | none => (dictSet c.rpid c st.1, st.2)

/-- Source `deduplicate_by_rpid` (this function appears with identical logic in
`merge_and_deduplicate_comments`, in `perform_iteration_deduplication`
and in the standalone CSV deduplication tool): returns
`(list(rpid_to_comment.values()), duplicates)`. -/
def deduplicate_by_rpid (comments : List Comment) (ctype : String) :
    List Comment × List Comment :=
  ((comments.foldl (dedupStep ctype) ([], [])).1.map Prod.snd,
   (comments.foldl (dedupStep ctype) ([], [])).2)

/-- Source `merge_and_deduplicate_comments`: dedupe each pass, then dedupe the
concatenation of the survivors; duplicates from all three folds are
concatenated. -/
def merge_and_deduplicate_comments (popularity_comments time_comments :
    List Comment) : List Comment × List Comment :=
  ((deduplicate_by_rpid
      ((deduplicate_by_rpid popularity_comments "热度排序").1 ++
        (deduplicate_by_rpid time_comments "时间排序").1) "合并去重").1,
   (deduplicate_by_rpid popularity_comments "热度排序").2 ++
     (deduplicate_by_rpid time_comments "时间排序").2 ++
     (deduplicate_by_rpid
      ((deduplicate_by_rpid popularity_comments "热度排序").1 ++
        (deduplicate_by_rpid time_comments "时间排序").1) "合并去重").2)

/-- Source `perform_iteration_deduplication`: the same two-stage fold with the
iteration-mode labels, also returning the per-ordering survivors. -/
def perform_iteration_deduplication (popularity_comments time_comments :
    List Comment) :
    List Comment × List Comment × List Comment × List Comment :=
  ((deduplicate_by_rpid popularity_comments "热度爬取").1,
   (deduplicate_by_rpid time_comments "时间爬取").1,
   (deduplicate_by_rpid
      ((deduplicate_by_rpid popularity_comments "热度爬取").1 ++
        (deduplicate_by_rpid time_comments "时间爬取").1) "最终合并").1,
   (deduplicate_by_rpid popularity_comments "热度爬取").2 ++
     (deduplicate_by_rpid time_comments "时间爬取").2 ++
     (deduplicate_by_rpid
      ((deduplicate_by_rpid popularity_comments "热度爬取").1 ++
        (deduplicate_by_rpid time_comments "时间爬取").1) "最终合并").2)

/-! ## Duplicate-rate orchestrator -/

/-- Source `calculate_duplicate_rate`: percentage, among the rpids of the
current pass, of those
already seen in the previous pass.  The source computes in floating
point; the idealization to `ℚ` is exact for the integer-percentage cases
of interest. -/
def calculate_duplicate_rate (prev_rpids current_rpids : Finset String) : ℚ :=
  if current_rpids = ∅ then 0
  else ((prev_rpids ∩ current_rpids).card : ℚ) / (current_rpids.card : ℚ) * 100

/-- The set comprehension collecting the non-falsy rpid of every comment. -/
def rpidSetOf (comments : List Comment) : Finset String :=
  ((comments.filter (fun c => c.rpid ≠ "")).map (fun c => c.rpid)).toFinset

/-- The loop state of `crawl_duplicate_rate_iteration`: the per-ordering
continue flags, rpid-set histories and accumulated raw passes (logging,
file output and the rate report list are omitted). -/
structure IterState where
  popContinue : Bool
  timeContinue : Bool
  popHist : List (Finset String)
  timeHist : List (Finset String)
  allPop : List Comment
  allTime : List Comment
deriving DecidableEq

def initIterState : IterState :=
  { popContinue := true, timeContinue := true, popHist := [], timeHist := [],
    allPop := [], allTime := [] }

/-- One iteration of the duplicate-rate loop.  Each ordering runs only
while its flag is set; an empty pass clears the flag; from the second
pass on, a rate at or above the threshold clears the flag.  The crawler
results are supplied by the per-round oracle values. -/
def iterationStep (popTh timeTh : ℚ) (popFetch timeFetch : List Comment)
    (s : IterState) : IterState :=
  let s1 :=
    if s.popContinue then
      if popFetch ≠ [] then
        let hist := s.popHist ++ [rpidSetOf popFetch]
        { s with
          popContinue :=
            if 2 ≤ hist.length then
              if popTh ≤ calculate_duplicate_rate
                  (hist.getD (hist.length - 2) ∅)
                  (hist.getD (hist.length - 1) ∅) then false
              else true
            else true
          popHist := hist
          allPop := s.allPop ++ popFetch }
      else { s with popContinue := false }
    else s
  if s1.timeContinue then
    if timeFetch ≠ [] then
      let hist := s1.timeHist ++ [rpidSetOf timeFetch]
      { s1 with
        timeContinue :=
          if 2 ≤ hist.length then
            if timeTh ≤ calculate_duplicate_rate
                (hist.getD (hist.length - 2) ∅)
                (hist.getD (hist.length - 1) ∅) then false
            else true
          else true
        timeHist := hist
        allTime := s1.allTime ++ timeFetch }
    else { s1 with timeContinue := false }
  else s1

/-- Source `crawl_duplicate_rate_iteration`, control flow only: loop while at
least one of the ordering flags is set, one `iterationStep` per round, the
round results supplied by a finite oracle list. -/
def crawl_duplicate_rate_iteration (popTh timeTh : ℚ) :
    List (List Comment × List Comment) → IterState → IterState
  | [], s => s
  | round :: rest, s =>
    if s.popContinue || s.timeContinue then
      crawl_duplicate_rate_iteration popTh timeTh rest
        (iterationStep popTh timeTh round.1 round.2 s)
    else s

/-! ## Concrete test fixtures (inputs for counterexamples and witnesses) -/

def sampleRaw : RawEntry :=
  { rpid := "1", uname := "u", message := "m", like := 0, rcount := 0,
    ctime := 1, location := "", sex := "", level := 0, parent := "",
    parentMemberName := none }

def mkSub (k : Nat) : RawEntry := { sampleRaw with rpid := toString k }

def mkSubs (start n : Nat) : List RawEntry := (List.range' start n).map mkSub

/-- A reply thread of 45 replies, served in full pages of 20. -/
def src45 : SubSource := fun _ page =>
  if page = 1 then .envelope 0 (mkSubs 0 20)
  else if page = 2 then .envelope 0 (mkSubs 20 20)
  else if page = 3 then .envelope 0 (mkSubs 40 5)
  else .envelope 0 []

/-- A reply thread of 37 distinct replies (pages of 20 and 17). -/
def src37 : SubSource := fun _ page =>
  if page = 1 then .envelope 0 (mkSubs 0 20)
  else if page = 2 then .envelope 0 (mkSubs 20 17)
  else .envelope 0 []

/-- A reply-thread source with no replies at all. -/
def noSubSource : SubSource := fun _ _ => .envelope 0 []

/-- Top-level entry with 2 inline replies and the hint text `37条回复`
(no `共` prefix). -/
def entryHintBare : TopEntry :=
  { base := { sampleRaw with rpid := "9", rcount := 2 },
    subReplyEntryText := "37条回复".toList,
    replies := [mkSub 100, mkSub 101] }

/-- The same entry with the actual platform hint format `共37条回复`. -/
def entryHintFull : TopEntry :=
  { entryHintBare with subReplyEntryText := "共37条回复".toList }

/-- Synthetic page entry: one top-level comment (publish time 10) with
three inline replies with distinct publish times 3, 1, 2 (not ascending). -/
def entryThreeReplies : TopEntry :=
  { base := { sampleRaw with rpid := "8", ctime := 10, rcount := 3 },
    subReplyEntryText := [],
    replies := [{ sampleRaw with rpid := "a", ctime := 3 },
                { sampleRaw with rpid := "b", ctime := 1 },
                { sampleRaw with rpid := "c", ctime := 2 }] }

def sampleEntry : TopEntry :=
  { base := sampleRaw, subReplyEntryText := [], replies := [] }

/-- A successful page whose cursor already reports `is_end` while still
carrying one record. -/
def endPageEnv : Envelope :=
  { code := 0, message := "", replies := [sampleEntry], next := "",
    isEnd := true }

/-- A successful page with an empty reply list. -/
def emptyPageEnv : Envelope :=
  { code := 0, message := "", replies := [], next := "", isEnd := true }

/-- A comment record with the given rpid, crawl time and like count. -/
def mkC (r : String) (t : Int) (lk : Nat) : Comment :=
  { mainFloor := some 1, subFloor := 0, username := "u", content := "c",
    replyTo := "", likeCount := lk, replyCount := 0, timestamp := 0,
    level := 0, location := "", sex := "", commentType := "主楼评论",
    rpid := r, parent := "", crawlTime := some t, dupSource := none,
    origSource := none }

def listC (ns : List Nat) : List Comment := ns.map (fun k => mkC (toString k) 0 0)

/-- First popularity pass: identities 0..99. -/
def popRound1 : List Comment := listC (List.range 100)

/-- Second popularity pass: identities 10..109 (shares 90 of 100). -/
def popRound2 : List Comment := listC (List.range' 10 100)

def timeRound1 : List Comment := listC [1000]

def timeRound2 : List Comment := listC [2000]

def timeRound3 : List Comment := listC [2000]

def iterRounds : List (List Comment × List Comment) :=
  [(popRound1, timeRound1), (popRound2, timeRound2), (popRound1, timeRound3)]

/-- Identity sets sharing 90 of 100 identities. -/
def ids100A : Finset String := ((List.range 100).map toString).toFinset

def ids100B : Finset String := ((List.range' 10 100).map toString).toFinset

/-! ### Codec helper lemmas -/

theorem idxOf_spec (c : Char) (x : Char) :
    ∀ (l : List Char) (d : Nat), idxOf c l = some d → d < l.length ∧ l.getD d x = c := by
  intro l
  induction l with
  | nil => intro d h; simp [idxOf] at h
  | cons a rest ih =>
    intro d h
    by_cases ha : a = c
    · simp [idxOf, ha] at h
      subst h
      simp [ha]
    · simp [idxOf, ha] at h
      obtain ⟨e, he, rfl⟩ := h
      have hrec := ih e he
      exact ⟨by simpa using Nat.succ_lt_succ hrec.1, by simpa using hrec.2⟩

theorem revLookup_spec {c : Char} {d : Nat} (h : revLookup c = some d) :
    d < 58 ∧ alphaChar d = c := by
  have hs := idxOf_spec c 'F' ALPHABET d h
  have hlen : ALPHABET.length = 58 := rfl
  exact ⟨hlen ▸ hs.1, hs.2⟩

theorem revLookup_alphaChar {d : Nat} (h : d < 58) :
    revLookup (alphaChar d) = some d := by
  have hall : ∀ e : Fin 58, revLookup (alphaChar e.val) = some e.val := by decide
  exact hall ⟨d, h⟩

theorem or_two_pow_xor (n k X : Nat) (hk : k < 2 ^ n) (hX : X < 2 ^ n) :
    (2 ^ n ||| k) ^^^ X = 2 ^ n ||| (k ^^^ X) := by
  apply Nat.eq_of_testBit_eq
  intro i
  rcases eq_or_ne i n with rfl | hi
  · simp [Nat.testBit_two_pow_self, Nat.testBit_lt_two_pow hk,
      Nat.testBit_lt_two_pow hX]
  · simp [Nat.testBit_two_pow, Ne.symm hi]

theorem or_mask (n m : Nat) (hm : m < 2 ^ n) :
    (2 ^ n ||| m) &&& (2 ^ n - 1) = m := by
  rw [Nat.and_pow_two_sub_one_eq_mod]
  apply Nat.eq_of_testBit_eq
  intro i
  by_cases hi : i < n
  · have hne : n ≠ i := by omega
    simp [Nat.testBit_mod_two_pow, hi, Nat.testBit_two_pow, hne]
  · have hmi : m < 2 ^ i := lt_of_lt_of_le hm (Nat.pow_le_pow_right (by norm_num) (by omega))
    simp [Nat.testBit_mod_two_pow, hi, Nat.testBit_lt_two_pow hmi]

theorem or_mod_self (n a : Nat) (h1 : 2 ^ n ≤ a) (h2 : a < 2 ^ (n + 1)) :
    2 ^ n ||| (a % 2 ^ n) = a := by
  apply Nat.eq_of_testBit_eq
  intro i
  rcases lt_trichotomy i n with hi | rfl | hi
  · have hne : n ≠ i := by omega
    simp [Nat.testBit_or, Nat.testBit_two_pow, hne, Nat.testBit_mod_two_pow, hi]
  · have hdiv : a / 2 ^ i = 1 := by
      apply Nat.div_eq_of_lt_le (by simpa using h1)
      simpa [Nat.pow_succ, Nat.mul_comm] using h2
    have ha : a.testBit i = true := by
      rw [Nat.testBit_to_div_mod, hdiv]
      decide
    simp [Nat.testBit_two_pow_self, ha]
  · have hai : a < 2 ^ i := lt_of_lt_of_le h2 (Nat.pow_le_pow_right (by norm_num) (by omega))
    have hne : n ≠ i := by omega
    have hi' : ¬ i < n := by omega
    simp [Nat.testBit_or, Nat.testBit_two_pow, hne, Nat.testBit_mod_two_pow, hi',
      Nat.testBit_lt_two_pow hai]

theorem two_pow_le_or (n m : Nat) : 2 ^ n ≤ 2 ^ n ||| m :=
  Nat.testBit_implies_ge (i := n) (by simp [Nat.testBit_two_pow_self])

theorem or_lt_two_pow_succ (n m : Nat) (hm : m < 2 ^ n) : 2 ^ n ||| m < 2 ^ (n + 1) :=
  Nat.or_lt_two_pow (Nat.pow_lt_pow_succ (by norm_num))
    (lt_trans hm (Nat.pow_lt_pow_succ (by norm_num)))

/-- Evaluation of the encoding loop when the value is at least `58 ^ 8`
(then the `if aid == 0: break` never fires and all nine cells are set). -/
theorem fillCells_eval (a : Nat) (h : 128063081718016 ≤ a) :
    fillCells a [11, 10, 9, 8, 7, 6, 5, 4, 3] initCells =
      [['B'], ['V'], ['1'],
       [alphaChar (a / 58 / 58 / 58 / 58 / 58 / 58 / 58 / 58 % 58)],
       [alphaChar (a / 58 / 58 / 58 / 58 / 58 / 58 / 58 % 58)],
       [alphaChar (a / 58 / 58 / 58 / 58 / 58 / 58 % 58)],
       [alphaChar (a / 58 / 58 / 58 / 58 / 58 % 58)],
       [alphaChar (a / 58 / 58 / 58 / 58 % 58)],
       [alphaChar (a / 58 / 58 / 58 % 58)],
       [alphaChar (a / 58 / 58 % 58)],
       [alphaChar (a / 58 % 58)],
       [alphaChar (a % 58)]] := by
  have h0 : ¬ a = 0 := by omega
  have h1 : ¬ a / 58 = 0 := by omega
  have h2 : ¬ a / 58 / 58 = 0 := by omega
  have h3 : ¬ a / 58 / 58 / 58 = 0 := by omega
  have h4 : ¬ a / 58 / 58 / 58 / 58 = 0 := by omega
  have h5 : ¬ a / 58 / 58 / 58 / 58 / 58 = 0 := by omega
  have h6 : ¬ a / 58 / 58 / 58 / 58 / 58 / 58 = 0 := by omega
  have h7 : ¬ a / 58 / 58 / 58 / 58 / 58 / 58 / 58 = 0 := by omega
  have h8 : ¬ a / 58 / 58 / 58 / 58 / 58 / 58 / 58 / 58 = 0 := by omega
  simp only [fillCells, BASE, h0, h1, h2, h3, h4, h5, h6, h7, h8, if_false,
    initCells, List.set]

/-- The decoding loop applied to alphabet characters of in-range digits. -/
theorem b58fold_alpha (ds : List Nat) (hds : ∀ d ∈ ds, d < 58) :
    ∀ acc : Nat, b58fold (ds.map alphaChar) acc =
      some (ds.foldl (fun x d => x * 58 + d) acc) := by
  induction ds with
  | nil => intro acc; simp [b58fold]
  | cons d rest ih =>
    intro acc
    have hd : d < 58 := hds d (by simp)
    have hrest : ∀ e ∈ rest, e < 58 := fun e he => hds e (by simp [he])
    simp only [List.map_cons, b58fold, revLookup_alphaChar hd, List.foldl_cons, BASE]
    exact ih hrest (acc * 58 + d)

theorem pyUpper_B : pyUpper 'B' = 'B' := rfl

theorem pyUpper_V : pyUpper 'V' = 'V' := rfl

theorem pyUpper_one : pyUpper '1' = '1' := rfl

/-- Value of a nine-digit base-58 numeral (most significant digit first);
the accumulator shape produced by the decoding loop. -/
def b58val9 (e8 e7 e6 e5 e4 e3 e2 e1 e0 : Nat) : Nat :=
  (((((((e8 * 58 + e7) * 58 + e6) * 58 + e5) * 58 + e4) * 58 + e3) * 58 + e2)
      * 58 + e1) * 58 + e0

/-- Decoding a display id whose tail is alphabet characters (laid out as
`aid_to_bvid` lays them out after the two positional swaps). -/
theorem bvid_to_aid_digits (e0 e1 e2 e3 e4 e5 e6 e7 e8 : Nat)
    (h0 : e0 < 58) (h1 : e1 < 58) (h2 : e2 < 58) (h3 : e3 < 58) (h4 : e4 < 58)
    (h5 : e5 < 58) (h6 : e6 < 58) (h7 : e7 < 58) (h8 : e8 < 58) :
    bvid_to_aid ['B', 'V', '1', alphaChar e2, alphaChar e4, alphaChar e6,
      alphaChar e5, alphaChar e7, alphaChar e3, alphaChar e8, alphaChar e1,
      alphaChar e0] =
    (if MAX_AID <<< 1 ≤ b58val9 e8 e7 e6 e5 e4 e3 e2 e1 e0 ∨
        b58val9 e8 e7 e6 e5 e4 e3 e2 e1 e0 < MAX_AID then none
     else some ((b58val9 e8 e7 e6 e5 e4 e3 e2 e1 e0 &&& MASK_CODE) ^^^
        XOR_CODE)) := by
  have hmem : ∀ d ∈ [e8, e7, e6, e5, e4, e3, e2, e1, e0], d < 58 := by
    intro d hd
    simp only [List.mem_cons, List.not_mem_nil, or_false] at hd
    rcases hd with rfl | rfl | rfl | rfl | rfl | rfl | rfl | rfl | rfl <;>
      assumption
  rw [bvid_to_aid]
  rw [if_neg (by norm_num [BV_LEN])]
  rw [if_neg (by simp [startsBV1, pyUpper_B, pyUpper_V, pyUpper_one])]
  rw [show (swap2 (swap2 ['B', 'V', '1', alphaChar e2, alphaChar e4,
      alphaChar e6, alphaChar e5, alphaChar e7, alphaChar e3, alphaChar e8,
      alphaChar e1, alphaChar e0] 3 9 'F') 4 7 'F').drop 3 =
    List.map alphaChar [e8, e7, e6, e5, e4, e3, e2, e1, e0] from rfl]
  rw [b58fold_alpha _ hmem 0]
  simp only [List.foldl_cons, List.foldl_nil, Nat.zero_mul, Nat.zero_add]
  rfl

/-- Round trip one: every AV number in `[MIN_AID, MAX_AID)` encodes to a
display id that decodes back to it. -/
theorem decode_encode (n : Nat) (hn1 : MIN_AID ≤ n) (hn2 : n < MAX_AID) :
    (aid_to_bvid n).bind bvid_to_aid = some n := by
  have e1 : MIN_AID = 1 := rfl
  have eM : MAX_AID = 2 ^ 51 := by norm_num [MAX_AID]
  have eX : XOR_CODE < 2 ^ 51 := by norm_num [XOR_CODE]
  have hn51 : n < 2 ^ 51 := by rw [eM] at hn2; exact hn2
  have hform : (MAX_AID ||| n) ^^^ XOR_CODE = 2 ^ 51 ||| (n ^^^ XOR_CODE) := by
    rw [eM]; exact or_two_pow_xor 51 n XOR_CODE hn51 eX
  have hxlt : n ^^^ XOR_CODE < 2 ^ 51 := Nat.xor_lt_two_pow hn51 eX
  have hge : 2 ^ 51 ≤ (MAX_AID ||| n) ^^^ XOR_CODE := by
    rw [hform]; exact two_pow_le_or 51 _
  have hlt : (MAX_AID ||| n) ^^^ XOR_CODE < 2 ^ 52 := by
    rw [hform]; exact or_lt_two_pow_succ 51 _ hxlt
  have hge8 : 128063081718016 ≤ (MAX_AID ||| n) ^^^ XOR_CODE :=
    le_trans (by norm_num) hge
  have hguard : ¬ (n < MIN_AID ∨ MAX_AID ≤ n) := by
    push_neg
    exact ⟨hn1, hn2⟩
  rw [aid_to_bvid, if_neg hguard, fillCells_eval _ hge8]
  set A := (MAX_AID ||| n) ^^^ XOR_CODE with hA
  rw [show List.flatten (swap2 (swap2 [['B'], ['V'], ['1'],
      [alphaChar (A / 58 / 58 / 58 / 58 / 58 / 58 / 58 / 58 % 58)],
      [alphaChar (A / 58 / 58 / 58 / 58 / 58 / 58 / 58 % 58)],
      [alphaChar (A / 58 / 58 / 58 / 58 / 58 / 58 % 58)],
      [alphaChar (A / 58 / 58 / 58 / 58 / 58 % 58)],
      [alphaChar (A / 58 / 58 / 58 / 58 % 58)],
      [alphaChar (A / 58 / 58 / 58 % 58)],
      [alphaChar (A / 58 / 58 % 58)],
      [alphaChar (A / 58 % 58)],
      [alphaChar (A % 58)]] 3 9 []) 4 7 []) =
    ['B', 'V', '1', alphaChar (A / 58 / 58 % 58),
      alphaChar (A / 58 / 58 / 58 / 58 % 58),
      alphaChar (A / 58 / 58 / 58 / 58 / 58 / 58 % 58),
      alphaChar (A / 58 / 58 / 58 / 58 / 58 % 58),
      alphaChar (A / 58 / 58 / 58 / 58 / 58 / 58 / 58 % 58),
      alphaChar (A / 58 / 58 / 58 % 58),
      alphaChar (A / 58 / 58 / 58 / 58 / 58 / 58 / 58 / 58 % 58),
      alphaChar (A / 58 % 58), alphaChar (A % 58)] from rfl]
  rw [Option.some_bind]
  rw [bvid_to_aid_digits (A % 58) (A / 58 % 58) (A / 58 / 58 % 58)
    (A / 58 / 58 / 58 % 58) (A / 58 / 58 / 58 / 58 % 58)
    (A / 58 / 58 / 58 / 58 / 58 % 58) (A / 58 / 58 / 58 / 58 / 58 / 58 % 58)
    (A / 58 / 58 / 58 / 58 / 58 / 58 / 58 % 58)
    (A / 58 / 58 / 58 / 58 / 58 / 58 / 58 / 58 % 58)
    (Nat.mod_lt _ (by norm_num)) (Nat.mod_lt _ (by norm_num))
    (Nat.mod_lt _ (by norm_num)) (Nat.mod_lt _ (by norm_num))
    (Nat.mod_lt _ (by norm_num)) (Nat.mod_lt _ (by norm_num))
    (Nat.mod_lt _ (by norm_num)) (Nat.mod_lt _ (by norm_num))
    (Nat.mod_lt _ (by norm_num))]
  have hrecon :
      b58val9 (A / 58 / 58 / 58 / 58 / 58 / 58 / 58 / 58 % 58)
        (A / 58 / 58 / 58 / 58 / 58 / 58 / 58 % 58)
        (A / 58 / 58 / 58 / 58 / 58 / 58 % 58)
        (A / 58 / 58 / 58 / 58 / 58 % 58) (A / 58 / 58 / 58 / 58 % 58)
        (A / 58 / 58 / 58 % 58) (A / 58 / 58 % 58) (A / 58 % 58)
        (A % 58) = A := by
    have hA9 : A < 7427658739644928 := lt_of_lt_of_le hlt (by norm_num)
    simp only [b58val9]
    omega
  rw [hrecon]
  have hsl : MAX_AID <<< 1 = 4503599627370496 := rfl
  have hAlit1 : 2251799813685248 ≤ A := by
    have : (2 : Nat) ^ 51 = 2251799813685248 := by norm_num
    omega
  have hAlit2 : A < 4503599627370496 := by
    have : (2 : Nat) ^ 52 = 4503599627370496 := by norm_num
    omega
  rw [if_neg (by rw [hsl, show MAX_AID = 2251799813685248 from rfl]; omega)]
  have hfin : (A &&& MASK_CODE) ^^^ XOR_CODE = n := by
    have eMask : MASK_CODE = 2 ^ 51 - 1 := by norm_num [MASK_CODE]
    rw [hform, eMask, or_mask 51 _ hxlt, Nat.xor_cancel_right]
  rw [hfin]

theorem pyUpper_eq_one {c : Char} (h : pyUpper c = '1') : c = '1' := by
  unfold pyUpper at h
  split at h <;> first | exact h | exact absurd h (by decide)

theorem b58fold_cons_some {c : Char} {rest : List Char} {acc v : Nat}
    (h : b58fold (c :: rest) acc = some v) :
    ∃ d, revLookup c = some d ∧ b58fold rest (acc * BASE + d) = some v := by
  rw [show b58fold (c :: rest) acc = (match revLookup c with
      | none => none
      | some d => b58fold rest (acc * BASE + d)) from rfl] at h
  cases hr : revLookup c with
  | none => rw [hr] at h; cases h
  | some d => rw [hr] at h; exact ⟨d, rfl, h⟩

/-- Round trip two: any display id accepted by `bvid_to_aid` with a decoded
value of at least `MIN_AID` re-encodes to itself, up to uppercasing the two
letters of the `BV` prefix. -/
theorem encode_decode (s : List Char) (m : Nat) (hs : bvid_to_aid s = some m)
    (hm : MIN_AID ≤ m) : aid_to_bvid m = some (normBV s) := by
  have hlen : s.length = 12 := by
    by_contra hne
    rw [bvid_to_aid, if_pos (by simpa [BV_LEN] using hne)] at hs
    cases hs
  rcases s with _ | ⟨c0, _ | ⟨c1, _ | ⟨c2, _ | ⟨c3, _ | ⟨c4, _ | ⟨c5, _ |
    ⟨c6, _ | ⟨c7, _ | ⟨c8, _ | ⟨c9, _ | ⟨c10, _ | ⟨c11, rest⟩⟩⟩⟩⟩⟩⟩⟩⟩⟩⟩⟩ <;>
    simp only [List.length_cons, List.length_nil] at hlen
  all_goals try omega
  have hrest : rest = [] := by
    have h0 : rest.length = 0 := by omega
    simpa [List.length_eq_zero] using h0
  subst hrest
  rw [bvid_to_aid, if_neg (by norm_num [BV_LEN])] at hs
  by_cases hst : startsBV1 [c0, c1, c2, c3, c4, c5, c6, c7, c8, c9, c10, c11]
      = true
  case neg =>
    rw [if_pos (by simpa using hst)] at hs
    cases hs
  rw [if_neg (by simp [hst])] at hs
  simp only [startsBV1, Bool.and_eq_true, beq_iff_eq] at hst
  obtain ⟨⟨hB, hV⟩, h1c⟩ := hst
  have hc2 : c2 = '1' := pyUpper_eq_one h1c
  rw [show (swap2 (swap2 [c0, c1, c2, c3, c4, c5, c6, c7, c8, c9, c10, c11]
      3 9 'F') 4 7 'F').drop 3 = [c9, c7, c5, c6, c4, c8, c3, c10, c11]
    from rfl] at hs
  split at hs
  next => cases hs
  next a heq =>
    split at hs
    next => cases hs
    next hrange =>
      injection hs with hs
      obtain ⟨d8, hr9, hf⟩ := b58fold_cons_some heq
      obtain ⟨d7, hr7, hf⟩ := b58fold_cons_some hf
      obtain ⟨d6, hr5, hf⟩ := b58fold_cons_some hf
      obtain ⟨d5, hr6, hf⟩ := b58fold_cons_some hf
      obtain ⟨d4, hr4, hf⟩ := b58fold_cons_some hf
      obtain ⟨d3, hr8, hf⟩ := b58fold_cons_some hf
      obtain ⟨d2, hr3, hf⟩ := b58fold_cons_some hf
      obtain ⟨d1, hr10, hf⟩ := b58fold_cons_some hf
      obtain ⟨d0, hr11, hf⟩ := b58fold_cons_some hf
      rw [show b58fold [] (((((((((0 * BASE + d8) * BASE + d7) * BASE + d6)
          * BASE + d5) * BASE + d4) * BASE + d3) * BASE + d2) * BASE + d1)
          * BASE + d0) = some (((((((((0 * BASE + d8) * BASE + d7) * BASE + d6)
          * BASE + d5) * BASE + d4) * BASE + d3) * BASE + d2) * BASE + d1)
          * BASE + d0) from rfl] at hf
      injection hf with hf
      obtain ⟨hd8lt, hα9⟩ := revLookup_spec hr9
      obtain ⟨hd7lt, hα7⟩ := revLookup_spec hr7
      obtain ⟨hd6lt, hα5⟩ := revLookup_spec hr5
      obtain ⟨hd5lt, hα6⟩ := revLookup_spec hr6
      obtain ⟨hd4lt, hα4⟩ := revLookup_spec hr4
      obtain ⟨hd3lt, hα8⟩ := revLookup_spec hr8
      obtain ⟨hd2lt, hα3⟩ := revLookup_spec hr3
      obtain ⟨hd1lt, hα10⟩ := revLookup_spec hr10
      obtain ⟨hd0lt, hα11⟩ := revLookup_spec hr11
      have eB : BASE = 58 := rfl
      rw [eB] at hf
      have hsl : MAX_AID <<< 1 = 4503599627370496 := rfl
      have eMx : MAX_AID = 2251799813685248 := rfl
      rw [hsl, eMx] at hrange
      push_neg at hrange
      obtain ⟨ha2, ha1⟩ := hrange
      have h51 : (2 : Nat) ^ 51 = 2251799813685248 := by norm_num
      have h52 : (2 : Nat) ^ 52 = 4503599627370496 := by norm_num
      have hage : 2 ^ 51 ≤ a := by omega
      have halt : a < 2 ^ 52 := by omega
      have eMask : MASK_CODE = 2 ^ 51 - 1 := by norm_num [MASK_CODE]
      have eX : XOR_CODE < 2 ^ 51 := by norm_num [XOR_CODE]
      have hmmod : m = (a % 2 ^ 51) ^^^ XOR_CODE := by
        rw [← hs, eMask, Nat.and_pow_two_sub_one_eq_mod]
      have hmlt : m < 2 ^ 51 := by
        rw [hmmod]
        exact Nat.xor_lt_two_pow (Nat.mod_lt _ (by positivity)) eX
      have hguard : ¬ (m < MIN_AID ∨ MAX_AID ≤ m) := by
        push_neg
        refine ⟨hm, ?_⟩
        rw [eMx]
        omega
      rw [aid_to_bvid, if_neg hguard]
      have hAa : (MAX_AID ||| m) ^^^ XOR_CODE = a := by
        have eM : MAX_AID = 2 ^ 51 := by norm_num [MAX_AID]
        rw [eM, or_two_pow_xor 51 m XOR_CODE hmlt eX, hmmod,
          Nat.xor_cancel_right]
        exact or_mod_self 51 a hage halt
      rw [hAa, fillCells_eval a (by omega)]
      have hdg : a % 58 = d0 ∧ a / 58 % 58 = d1 ∧ a / 58 / 58 % 58 = d2 ∧
          a / 58 / 58 / 58 % 58 = d3 ∧ a / 58 / 58 / 58 / 58 % 58 = d4 ∧
          a / 58 / 58 / 58 / 58 / 58 % 58 = d5 ∧
          a / 58 / 58 / 58 / 58 / 58 / 58 % 58 = d6 ∧
          a / 58 / 58 / 58 / 58 / 58 / 58 / 58 % 58 = d7 ∧
          a / 58 / 58 / 58 / 58 / 58 / 58 / 58 / 58 % 58 = d8 := by
        omega
      obtain ⟨e0, e1, e2, e3, e4, e5, e6, e7, e8⟩ := hdg
      rw [e0, e1, e2, e3, e4, e5, e6, e7, e8, hα9, hα7, hα5, hα6, hα4, hα8,
        hα3, hα10, hα11]
      rw [show List.flatten (swap2 (swap2 [['B'], ['V'], ['1'], [c9], [c7],
        [c5], [c6], [c4], [c8], [c3], [c10], [c11]] 3 9 []) 4 7 []) =
        ['B', 'V', '1', c3, c4, c5, c6, c7, c8, c9, c10, c11] from rfl]
      rw [show normBV [c0, c1, c2, c3, c4, c5, c6, c7, c8, c9, c10, c11] =
        [pyUpper c0, pyUpper c1, c2, c3, c4, c5, c6, c7, c8, c9, c10, c11]
        from rfl]
      rw [hB, hV, hc2]

/-! ## Claim theorems -/

/-- C9, counterexample: the display id `BV1xx411c7mX` is accepted by
`bvid_to_aid` (it returns a stable id, not the invalid marker `None`), yet
that id decodes to 0 and `aid_to_bvid 0` is the invalid marker — so
`encode (decode id)` is not the id, refuting the second round trip as
stated for all accepted display ids. -/
theorem codec_accepted_id_not_reencodable :
    bvid_to_aid "BV1xx411c7mX".toList = some 0 ∧ aid_to_bvid 0 = none := by
  constructor
  · decide
  · decide

/-- C9, amended: `decode (encode n) = n` on all of `[MIN_AID, MAX_AID)`;
`encode (decode id) = id` up to case normalization for every accepted
display id whose decoded value is at least `MIN_AID` (the single id
decoding to 0 is the exception); `encode` yields the invalid marker
outside `[MIN_AID, MAX_AID)`; `decode` yields the invalid marker whenever
the base-58 value of the (swapped) digit block falls outside
`[MAX_AID, 2 * MAX_AID)`. -/
theorem codec_round_trip_amended :
    (∀ n : Nat, MIN_AID ≤ n → n < MAX_AID →
      (aid_to_bvid n).bind bvid_to_aid = some n) ∧
    (∀ (s : List Char) (m : Nat), bvid_to_aid s = some m → MIN_AID ≤ m →
      aid_to_bvid m = some (normBV s)) ∧
    (∀ n : Nat, n < MIN_AID ∨ MAX_AID ≤ n → aid_to_bvid n = none) ∧
    (∀ (s : List Char) (a : Nat),
      b58fold ((swap2 (swap2 s 3 9 'F') 4 7 'F').drop 3) 0 = some a →
      (MAX_AID <<< 1 ≤ a ∨ a < MAX_AID) → bvid_to_aid s = none) := by
  refine ⟨decode_encode, encode_decode, ?_, ?_⟩
  · intro n h
    rw [aid_to_bvid, if_pos h]
  · intro s a hf hr
    rw [bvid_to_aid]
    split
    · rfl
    · split
      · rfl
      · rw [hf]
        exact if_pos hr

theorem codec_round_trip_amended_witness :
    (aid_to_bvid 1).bind bvid_to_aid = some 1 ∧
    aid_to_bvid 1 = some (normBV "BV1xx411c7mQ".toList) ∧
    aid_to_bvid 0 = none ∧
    bvid_to_aid ['B', 'V', '1', 'F', 'F', 'F', 'F', 'F', 'F', 'F', 'F', 'F']
      = none :=
  ⟨codec_round_trip_amended.1 1 (by decide) (by decide),
   codec_round_trip_amended.2.1 "BV1xx411c7mQ".toList 1 (by decide)
     (by decide),
   codec_round_trip_amended.2.2.1 0 (by decide),
   codec_round_trip_amended.2.2.2
     ['B', 'V', '1', 'F', 'F', 'F', 'F', 'F', 'F', 'F', 'F', 'F'] 0
     (by decide) (by decide)⟩

/-- C1: contrary to the claim, an HTTP 412 response is converted into the
transient-error outcome.  `response.raise_for_status()` runs before the
status is inspected, raises for every 4xx/5xx status, and the generic
`RequestException` handler returns `None`; consequently
`CookieBannedException` can never be raised by `get_bilibili_comments`
(its 412 branch is dead code), and the crawl driver files a 412 under the
ordinary fetch-failed reason. -/
theorem http412_swallowed_as_transient :
    (∀ body : Envelope,
      get_bilibili_comments (.response 412 body) = FetchOutcome.noneResult) ∧
    (∀ attempt : HttpAttempt,
      isBanned (get_bilibili_comments attempt) = false) ∧
    crawl_all_comments_with_reason noSubSource "oid" 0 false
      [.response 412 emptyPageEnv] [] 0 =
      CrawlOutcome.done [] "API请求失败" 1 := by
  refine ⟨fun body => rfl, ?_, rfl⟩
  intro attempt
  cases attempt with
  | exception => rfl
  | response status body =>
    simp only [get_bilibili_comments]
    split_ifs with hA hB hC
    · rfl
    · rfl
    · exfalso
      omega
    · rfl

/-- C2: on a page whose cursor already reports `is_end` while carrying a
record, `crawl_all_comments_with_reason` flattens and appends the page but
then issues a request for a further page (two requests consumed here),
reaching the exhausted reason only through the next, empty page — the
claimed behaviour (terminate right away on `is_end`) is exhibited only by
`crawl_test_mode_comments`, which stops after one request. -/
theorem is_end_page_behaviour :
    crawl_all_comments_with_reason noSubSource "oid" 0 false
      [.response 200 endPageEnv, .response 200 emptyPageEnv] [] 0 =
      CrawlOutcome.done [process_single_comment sampleRaw (some 1) 0 false 0]
        "评论已全部爬取完毕" 2 ∧
    crawl_test_mode_comments noSubSource "oid" 0 5
      [.response 200 endPageEnv, .response 200 emptyPageEnv] [] 1 0 =
      CrawlOutcome.done [process_single_comment sampleRaw (some 1) 0 false 0]
        "评论已全部爬取完毕" 1 := by
  constructor
  · rfl
  · rfl

/-- C7: with 45 total replies of which 5 are already held, the
supplementary fetch starts at the correct page and skips the 5 held
replies, but the end-of-thread check compares the page length AFTER the
skip (15 < 20), so it stops after one page with 15 of the 40 missing
replies — even though the same thread, fetched with no skip, yields all
45. -/
theorem sub_reply_skip_truncates :
    (get_all_sub_replies src45 "r" "oid" 45 5).length = 15 ∧
    (get_all_sub_replies src45 "r" "oid" 45 0).length = 45 := by
  constructor
  · decide
  · decide

/-! ### Deduplication lemmas -/

theorem annotate_rpid (t : String) (c : Comment) :
    (annotate t c).rpid = c.rpid := rfl

theorem dictFind_mem {k : String} {v : Comment} :
    ∀ {l : List (String × Comment)}, dictFind k l = some v → (k, v) ∈ l := by
  intro l
  induction l with
  | nil => intro h; simp [dictFind] at h
  | cons kv rest ih =>
    intro h
    rw [dictFind] at h
    by_cases hk : kv.1 = k
    · rw [if_pos hk] at h
      injection h with h
      exact List.mem_cons.mpr (Or.inl (by rw [← hk, ← h]))
    · rw [if_neg hk] at h
      exact List.mem_cons_of_mem _ (ih h)

theorem dictSet_mem {k : String} {v : Comment} :
    ∀ {l : List (String × Comment)} {kv : String × Comment},
      kv ∈ dictSet k v l → kv = (k, v) ∨ kv ∈ l := by
  intro l
  induction l with
  | nil =>
    intro kv h
    simp [dictSet] at h
    exact Or.inl h
  | cons kv2 rest ih =>
    intro kv h
    rw [dictSet] at h
    by_cases hk : kv2.1 = k
    · rw [if_pos hk] at h
      rcases List.mem_cons.mp h with h1 | h1
      · exact Or.inl h1
      · exact Or.inr (List.mem_cons_of_mem _ h1)
    · rw [if_neg hk] at h
      rcases List.mem_cons.mp h with h1 | h1
      · exact Or.inr (List.mem_cons.mpr (Or.inl h1))
      · rcases ih h1 with h2 | h2
        · exact Or.inl h2
        · exact Or.inr (List.mem_cons_of_mem _ h2)

theorem dictSet_length_found {k : String} {v2 : Comment} :
    ∀ {l : List (String × Comment)} {v : Comment}, dictFind k l = some v →
      (dictSet k v2 l).length = l.length := by
  intro l
  induction l with
  | nil => intro v h; simp [dictFind] at h
  | cons kv rest ih =>
    intro v h
    rw [dictFind] at h
    rw [dictSet]
    by_cases hk : kv.1 = k
    · rw [if_pos hk]
      simp
    · rw [if_neg hk] at h
      rw [if_neg hk]
      simp [ih h]

theorem dictSet_length_new {k : String} {v : Comment} :
    ∀ {l : List (String × Comment)}, dictFind k l = none →
      (dictSet k v l).length = l.length + 1 := by
  intro l
  induction l with
  | nil => intro _; simp [dictSet]
  | cons kv rest ih =>
    intro h
    rw [dictFind] at h
    rw [dictSet]
    by_cases hk : kv.1 = k
    · rw [if_pos hk] at h
      cases h
    · rw [if_neg hk] at h
      rw [if_neg hk]
      simp [ih h]

/-- Invariant of the deduplication fold: every dictionary entry is keyed
by the non-empty rpid of its own record, and every recorded duplicate has a
non-empty rpid. -/
theorem dedup_fold_keys (ctype : String) :
    ∀ (comments : List Comment) (st : List (String × Comment) × List Comment),
      (∀ kv ∈ st.1, kv.2.rpid = kv.1 ∧ kv.1 ≠ "") →
      (∀ c ∈ st.2, c.rpid ≠ "") →
      (∀ kv ∈ (comments.foldl (dedupStep ctype) st).1,
        kv.2.rpid = kv.1 ∧ kv.1 ≠ "") ∧
      (∀ c ∈ (comments.foldl (dedupStep ctype) st).2, c.rpid ≠ "") := by
  intro comments
  induction comments with
  | nil => intro st h1 h2; exact ⟨h1, h2⟩
  | cons c rest ih =>
    intro st h1 h2
    rw [List.foldl_cons]
    by_cases hc : c.rpid = ""
    · rw [show dedupStep ctype st c = st from by rw [dedupStep, if_pos hc]]
      exact ih st h1 h2
    · apply ih
      · intro kv hkv
        rw [dedupStep, if_neg hc] at hkv
        rcases hfind : dictFind c.rpid st.1 with _ | existing <;>
            rw [hfind] at hkv <;> dsimp only at hkv
        · rcases dictSet_mem hkv with h3 | h3
          · rw [h3]
            exact ⟨rfl, hc⟩
          · exact h1 kv h3
        · split at hkv <;> dsimp only at hkv
          · rcases dictSet_mem hkv with h3 | h3
            · rw [h3]
              exact ⟨rfl, hc⟩
            · exact h1 kv h3
          · exact h1 kv hkv
      · intro d hd
        rw [dedupStep, if_neg hc] at hd
        rcases hfind : dictFind c.rpid st.1 with _ | existing <;>
            rw [hfind] at hd <;> dsimp only at hd
        · exact h2 d hd
        · have hex : existing.rpid ≠ "" := by
            have hmem := dictFind_mem hfind
            have := (h1 (c.rpid, existing) hmem).1
            simp only at this
            rw [this]
            exact hc
          split at hd <;> dsimp only at hd <;>
            rcases List.mem_append.mp hd with h3 | h3
          · exact h2 d h3
          · rw [List.mem_singleton.mp h3, annotate_rpid]
            exact hex
          · exact h2 d h3
          · rw [List.mem_singleton.mp h3, annotate_rpid]
            exact hc

/-- Counting invariant of the deduplication fold on inputs whose records
all carry a non-empty rpid: every step grows dictionary-plus-duplicates by
exactly one. -/
theorem dedup_fold_length (ctype : String) :
    ∀ (comments : List Comment) (st : List (String × Comment) × List Comment),
      (∀ c ∈ comments, c.rpid ≠ "") →
      (comments.foldl (dedupStep ctype) st).1.length +
        (comments.foldl (dedupStep ctype) st).2.length =
        st.1.length + st.2.length + comments.length := by
  intro comments
  induction comments with
  | nil => intro st _; simp
  | cons c rest ih =>
    intro st hall
    rw [List.foldl_cons]
    have hc : c.rpid ≠ "" := hall c (List.mem_cons_self _ _)
    have hrest : ∀ d ∈ rest, d.rpid ≠ "" :=
      fun d hd => hall d (List.mem_cons_of_mem _ hd)
    have hstep : (dedupStep ctype st c).1.length +
        (dedupStep ctype st c).2.length = st.1.length + st.2.length + 1 := by
      rw [dedupStep, if_neg hc]
      rcases hfind : dictFind c.rpid st.1 with _ | existing <;> dsimp only
      · rw [dictSet_length_new hfind]
        omega
      · split <;> dsimp only <;>
          simp only [List.length_append, List.length_cons, List.length_nil]
        · rw [dictSet_length_found hfind]
          omega
        · omega
    rw [ih (dedupStep ctype st c) hrest, hstep]
    simp only [List.length_cons]
    omega

theorem dedup_single (r : Comment) (hne : r.rpid ≠ "") (t : String) :
    deduplicate_by_rpid [r] t = ([r], []) := by
  simp [deduplicate_by_rpid, dedupStep, hne, dictFind, dictSet]

theorem dedup_pair_later (r1 r2 : Comment) (hid : r1.rpid = r2.rpid)
    (hne : r1.rpid ≠ "")
    (ht : extract_crawl_time_from_filename r1 <
      extract_crawl_time_from_filename r2) (t : String) :
    deduplicate_by_rpid [r1, r2] t = ([r2], [annotate t r1]) := by
  have hne2 : r2.rpid ≠ "" := by rw [← hid]; exact hne
  simp [deduplicate_by_rpid, dedupStep, hne, hne2, hid, dictFind, dictSet, ht]

theorem dedup_pair_earlier (r1 r2 : Comment) (hid : r1.rpid = r2.rpid)
    (hne : r1.rpid ≠ "")
    (ht : extract_crawl_time_from_filename r1 <
      extract_crawl_time_from_filename r2) (t : String) :
    deduplicate_by_rpid [r2, r1] t = ([r2], [annotate t r1]) := by
  have hne2 : r2.rpid ≠ "" := by rw [← hid]; exact hne
  have hnot : ¬ (extract_crawl_time_from_filename r2 <
      extract_crawl_time_from_filename r1) := lt_asymm ht
  simp [deduplicate_by_rpid, dedupStep, hne, hne2, hid, dictFind, dictSet,
    hnot]

theorem dedup_pair_tie (r1 r2 : Comment) (hid : r1.rpid = r2.rpid)
    (hne : r1.rpid ≠ "")
    (ht : extract_crawl_time_from_filename r1 =
      extract_crawl_time_from_filename r2) (t : String) :
    deduplicate_by_rpid [r1, r2] t = ([r1], [annotate t r2]) := by
  have hne2 : r2.rpid ≠ "" := by rw [← hid]; exact hne
  have hnot : ¬ (extract_crawl_time_from_filename r1 <
      extract_crawl_time_from_filename r2) := by rw [ht]; exact lt_irrefl _
  simp [deduplicate_by_rpid, dedupStep, hne, hne2, hid, dictFind, dictSet,
    hnot]

/-- C3: last-writer-wins by fetched-at time.  For two records with the
same non-empty identity and strictly increasing extracted crawl times, the
merge keeps the record with the later time (with all its counters: it is
kept whole) and the earlier record lands in the duplicates list annotated
with the pass label — whether the two records meet inside one pass (third
and fourth conjuncts, annotated with the label of that pass) or only at the
cross-pass fold over the concatenated survivors (first two conjuncts,
annotated with the merge label), in either encounter order. -/
theorem merge_last_writer_wins (r1 r2 : Comment) (hid : r1.rpid = r2.rpid)
    (hne : r1.rpid ≠ "")
    (ht : extract_crawl_time_from_filename r1 <
      extract_crawl_time_from_filename r2) :
    merge_and_deduplicate_comments [r1] [r2] =
      ([r2], [annotate "合并去重" r1]) ∧
    merge_and_deduplicate_comments [r2] [r1] =
      ([r2], [annotate "合并去重" r1]) ∧
    merge_and_deduplicate_comments [r1, r2] [] =
      ([r2], [annotate "热度排序" r1]) ∧
    merge_and_deduplicate_comments [] [r1, r2] =
      ([r2], [annotate "时间排序" r1]) := by
  have hne2 : r2.rpid ≠ "" := by rw [← hid]; exact hne
  refine ⟨?_, ?_, ?_, ?_⟩
  · simp only [merge_and_deduplicate_comments, dedup_single r1 hne,
      dedup_single r2 hne2]
    simp only [List.cons_append, List.nil_append,
      dedup_pair_later r1 r2 hid hne ht]
  · simp only [merge_and_deduplicate_comments, dedup_single r1 hne,
      dedup_single r2 hne2]
    simp only [List.cons_append, List.nil_append,
      dedup_pair_earlier r1 r2 hid hne ht]
  · simp only [merge_and_deduplicate_comments,
      dedup_pair_later r1 r2 hid hne ht]
    simp [deduplicate_by_rpid, dedupStep, hne2, dictFind, dictSet]
  · simp only [merge_and_deduplicate_comments,
      dedup_pair_later r1 r2 hid hne ht]
    simp [deduplicate_by_rpid, dedupStep, hne2, dictFind, dictSet]

theorem merge_last_writer_wins_witness :
    merge_and_deduplicate_comments [mkC "7" 1 5] [mkC "7" 2 9] =
      ([mkC "7" 2 9], [annotate "合并去重" (mkC "7" 1 5)]) ∧
    merge_and_deduplicate_comments [mkC "7" 2 9] [mkC "7" 1 5] =
      ([mkC "7" 2 9], [annotate "合并去重" (mkC "7" 1 5)]) ∧
    merge_and_deduplicate_comments [mkC "7" 1 5, mkC "7" 2 9] [] =
      ([mkC "7" 2 9], [annotate "热度排序" (mkC "7" 1 5)]) ∧
    merge_and_deduplicate_comments [] [mkC "7" 1 5, mkC "7" 2 9] =
      ([mkC "7" 2 9], [annotate "时间排序" (mkC "7" 1 5)]) :=
  merge_last_writer_wins (mkC "7" 1 5) (mkC "7" 2 9) rfl (by decide)
    (by decide)

/-- C4, counterexample: two records with the same identity and equal
extracted crawl times.  The merge keeps the FIRST-encountered record and
sends the later-encountered one to the duplicates list — the opposite of
the claimed tie-break. -/
theorem merge_tie_keeps_first_encountered :
    (merge_and_deduplicate_comments [mkC "7" 3 5, mkC "7" 3 9] []).1 =
      [mkC "7" 3 5] ∧
    (merge_and_deduplicate_comments [mkC "7" 3 5, mkC "7" 3 9] []).2 =
      [annotate "热度排序" (mkC "7" 3 9)] ∧
    mkC "7" 3 5 ≠ mkC "7" 3 9 := by
  refine ⟨by decide, by decide, by decide⟩

/-- C4, amended: when the extracted crawl times are equal (which covers
equal parse results and the both-unparseable fallback to equal
timestamps), the record encountered EARLIER in the deterministic
iteration order (pass order, then within-pass original order) is kept and
the later-encountered record goes to the duplicates list. -/
theorem merge_tie_earlier_wins (r1 r2 : Comment) (hid : r1.rpid = r2.rpid)
    (hne : r1.rpid ≠ "")
    (ht : extract_crawl_time_from_filename r1 =
      extract_crawl_time_from_filename r2) :
    merge_and_deduplicate_comments [r1, r2] [] =
      ([r1], [annotate "热度排序" r2]) ∧
    merge_and_deduplicate_comments [r1] [r2] =
      ([r1], [annotate "合并去重" r2]) := by
  have hne2 : r2.rpid ≠ "" := by rw [← hid]; exact hne
  constructor
  · simp only [merge_and_deduplicate_comments,
      dedup_pair_tie r1 r2 hid hne ht]
    simp [deduplicate_by_rpid, dedupStep, hne, dictFind, dictSet]
  · simp only [merge_and_deduplicate_comments, dedup_single r1 hne,
      dedup_single r2 hne2]
    simp only [List.cons_append, List.nil_append,
      dedup_pair_tie r1 r2 hid hne ht]

theorem merge_tie_earlier_wins_witness :
    merge_and_deduplicate_comments [mkC "7" 3 5, mkC "7" 3 9] [] =
      ([mkC "7" 3 5], [annotate "热度排序" (mkC "7" 3 9)]) ∧
    merge_and_deduplicate_comments [mkC "7" 3 5] [mkC "7" 3 9] =
      ([mkC "7" 3 5], [annotate "合并去重" (mkC "7" 3 9)]) :=
  merge_tie_earlier_wins (mkC "7" 3 5) (mkC "7" 3 9) rfl (by decide)
    (by decide)

/-- C10: the deduplication fold silently discards records with an empty
identity — every record in the merged set or the duplicates list has a
non-empty rpid (first conjunct), the conservation equation holds whenever
every input record carries a non-empty identity (second conjunct), and a
one-record input with an empty rpid vanishes from both outputs (third
conjunct), so conservation indeed fails without the hypothesis. -/
theorem dedup_drops_empty_identity :
    (∀ (l : List Comment) (t : String) (c : Comment),
      c ∈ (deduplicate_by_rpid l t).1 ∨ c ∈ (deduplicate_by_rpid l t).2 →
      c.rpid ≠ "") ∧
    (∀ (l : List Comment) (t : String), (∀ c ∈ l, c.rpid ≠ "") →
      (deduplicate_by_rpid l t).1.length +
        (deduplicate_by_rpid l t).2.length = l.length) ∧
    deduplicate_by_rpid [mkC "" 0 0] "合并去重" = ([], []) := by
  refine ⟨?_, ?_, by decide⟩
  · intro l t c hmem
    have hkeys := dedup_fold_keys t l ([], []) (by simp) (by simp)
    rcases hmem with hm | hm
    · rw [deduplicate_by_rpid] at hm
      dsimp only at hm
      obtain ⟨kv, hkv, hsnd⟩ := List.mem_map.mp hm
      have hinv := hkeys.1 kv hkv
      rw [← hsnd, hinv.1]
      exact hinv.2
    · rw [deduplicate_by_rpid] at hm
      dsimp only at hm
      exact hkeys.2 c hm
  · intro l t hall
    have hcount := dedup_fold_length t l ([], []) hall
    rw [deduplicate_by_rpid]
    dsimp only
    rw [List.length_map]
    simpa using hcount

theorem dedup_drops_empty_identity_witness :
    (mkC "x" 0 0).rpid ≠ "" ∧
    (deduplicate_by_rpid [mkC "x" 0 0, mkC "x" 1 0] "t").1.length +
      (deduplicate_by_rpid [mkC "x" 0 0, mkC "x" 1 0] "t").2.length = 2 :=
  ⟨dedup_drops_empty_identity.1 [mkC "x" 0 0] "t" (mkC "x" 0 0)
      (Or.inl (by decide)),
   dedup_drops_empty_identity.2.1 [mkC "x" 0 0, mkC "x" 1 0] "t"
      (by decide)⟩

/-- C5, counterexample: a top-level entry carrying the hint string
`37条回复` (the very `N条回复` format named by the spec, without the `共`
prefix) with
a non-empty inline sample of 2, against a supplementary source holding 37
distinct replies.  The hint passes the containment test for `条回复`, so the
inline sample is discarded, but the regex search for `共(\d+)条回复` fails
and no
supplementary fetch happens: the flattener emits only the top-level
record, attributing 0 replies to the thread instead of 37. -/
theorem bare_hint_drops_thread :
    process_comments_page src37 "oid" 0 [entryHintBare] 1 =
      [process_single_comment entryHintBare.base (some 1) 0 false 0] ∧
    (get_all_sub_replies src37 "9" "oid" 37 0).length = 37 ∧
    ((get_all_sub_replies src37 "9" "oid" 37 0).map RawEntry.rpid).Nodup ∧
    entryHintBare.replies.length = 2 := by
  refine ⟨by decide, by decide, by decide, by decide⟩

/-- C5, amended: for a top-level entry whose hint matches the pattern the
code actually parses, `共N条回复`, the flattener discards the inline
sample entirely (it appears nowhere in the output) and attributes to the
thread exactly the records of the supplementary paginated fetch, so when
that source returns N distinct replies the count equals N. -/
theorem hint_refetch (e : TopEntry) (src : SubSource) (oid : String)
    (now : Int) (i N : Nat)
    (hhas : hasTHF e.subReplyEntryText = true)
    (hparse : searchGong e.subReplyEntryText = some N) :
    process_comments_page src oid now [e] i =
      process_single_comment e.base (some i) 0 false now ::
        enumMap (fun j sr => process_single_comment sr none j true now) 1
          (get_all_sub_replies src e.base.rpid oid (N : Int) 0) := by
  simp only [process_comments_page, hhas, hparse, if_true, List.append_nil]

theorem hint_refetch_witness :
    process_comments_page src37 "oid" 0 [entryHintFull] 1 =
      process_single_comment entryHintFull.base (some 1) 0 false 0 ::
        enumMap (fun j sr => process_single_comment sr none j true 0) 1
          (get_all_sub_replies src37 entryHintFull.base.rpid "oid"
            (37 : Int) 0) ∧
    (process_comments_page src37 "oid" 0 [entryHintFull] 1).length = 38 :=
  ⟨hint_refetch entryHintFull src37 "oid" 0 1 37 (by decide) (by decide),
   by decide⟩

/-- C6, counterexample: the synthetic page (one top-level comment, three
inline replies with distinct publish times 3, 1, 2) flattens to exactly 4
records with the top-level record first, but the replies keep their
inline order 3, 1, 2 — the flattener performs no publish-time sort, so
the claimed ascending order is violated. -/
theorem flatten_not_sorted_by_time :
    (process_comments_page noSubSource "oid" 0 [entryThreeReplies] 1).map
      Comment.timestamp = [10, 3, 1, 2] ∧
    (process_comments_page noSubSource "oid" 0 [entryThreeReplies] 1).length
      = 4 := by
  refine ⟨by decide, by decide⟩

theorem enumMap_append (f : Nat → RawEntry → Comment) :
    ∀ (a b : List RawEntry) (s : Nat),
      enumMap f s (a ++ b) = enumMap f s a ++ enumMap f (s + a.length) b := by
  intro a
  induction a with
  | nil => intro b s; simp [enumMap]
  | cons x xs ih =>
    intro b s
    rw [List.cons_append]
    rw [show enumMap f s (x :: (xs ++ b)) =
      f s x :: enumMap f (s + 1) (xs ++ b) from rfl]
    rw [ih b (s + 1)]
    rw [show enumMap f s (x :: xs) = f s x :: enumMap f (s + 1) xs from rfl]
    simp only [List.length_cons, List.cons_append]
    rw [show s + 1 + xs.length = s + (xs.length + 1) from by omega]

/-- C6, amended: for EVERY page, the flattener emits, per top-level
entry and in page order, the top-level record first, immediately
followed by that entry's reply records — numbered consecutively from 1
and kept exactly in the order the page (inline sample) or the
supplementary fetch delivered them, with no publish-time sorting. -/
theorem flatten_page_order (src : SubSource) (oid : String) (now : Int) :
    ∀ (replies : List TopEntry) (i : Nat),
      process_comments_page src oid now replies i =
        (((List.range' i replies.length).zip replies).map (fun p =>
          process_single_comment p.2.base (some p.1) 0 false now ::
            enumMap (fun j sr => process_single_comment sr none j true now) 1
              (deliveredReplies src oid p.2))).flatten := by
  intro replies
  induction replies with
  | nil => intro i; rfl
  | cons r rest ih =>
    intro i
    rw [show List.range' i (r :: rest).length =
      i :: List.range' (i + 1) rest.length from rfl]
    rw [List.zip_cons_cons, List.map_cons, List.flatten_cons]
    rw [process_comments_page, ih (i + 1)]
    congr 2
    rw [deliveredReplies]
    by_cases h1 : hasTHF r.subReplyEntryText
    · rw [if_pos h1, if_pos h1]
      cases hp : searchGong r.subReplyEntryText
      · rfl
      · rfl
    · rw [if_neg h1, if_neg h1]
      by_cases h2 : r.replies ≠ []
      · rw [if_pos h2, if_pos h2]
        by_cases h3 : r.replies.length < r.base.rcount
        · rw [if_pos h3, if_pos h3, enumMap_append]
          rw [show 1 + r.replies.length = r.replies.length + 1 from by omega]
        · rw [if_neg h3, if_neg h3, List.append_nil, List.append_nil]
      · rw [if_neg h2, if_neg h2]
        by_cases h4 : 0 < r.base.rcount
        · rw [if_pos h4, if_pos h4]
        · rw [if_neg h4, if_neg h4]
          rfl

set_option maxRecDepth 20000 in
/-- C8, counterexample: two identity sets sharing 90 of 100 identities.
`calculate_duplicate_rate` returns 90 — the percentage — not the fraction
`|A ∩ B| / |B| = 0.9` the claim equates it with. -/
theorem overlap_rate_is_percentage_not_fraction :
    calculate_duplicate_rate ids100A ids100B = 90 ∧
    ((ids100A ∩ ids100B).card : ℚ) / (ids100B.card : ℚ) = 9 / 10 ∧
    (90 : ℚ) ≠ 9 / 10 := by
  have h1 : (ids100A ∩ ids100B).card = 90 := by decide
  have h2 : ids100B.card = 100 := by decide
  have hne : ids100B ≠ ∅ := by decide
  refine ⟨?_, ?_, by norm_num⟩
  · rw [calculate_duplicate_rate, if_neg hne, h1, h2]
    norm_num
  · rw [h1, h2]
    norm_num

/-- C8, amended: the rate is the fraction scaled to a percentage
(`|A ∩ B| / |B| * 100`, first conjunct), and the thresholds are on the
same percentage scale: with both thresholds at 85, the ordering whose two
consecutive passes share 90 of 100 identities (rate 90) is halted after
that round while the other ordering continues (second and third
conjuncts); the loop goes on until the own threshold of the other ordering is
met, after which both flags are down, the halted ordering has accumulated
no further passes, and additional rounds change nothing (remaining
conjuncts). -/
theorem overlap_threshold_amended :
    (∀ A B : Finset String, B ≠ ∅ →
      calculate_duplicate_rate A B =
        ((A ∩ B).card : ℚ) / (B.card : ℚ) * 100) ∧
    (∀ (p1 p2 p3 t1 t2 t3 : List Comment)
      (extra : List Comment × List Comment),
      p1 ≠ [] → p2 ≠ [] → t1 ≠ [] → t2 ≠ [] → t3 ≠ [] →
      (rpidSetOf p1 ∩ rpidSetOf p2).card = 90 →
      (rpidSetOf p2).card = 100 →
      (rpidSetOf t1 ∩ rpidSetOf t2).card = 0 →
      (rpidSetOf t2).card = 1 →
      (rpidSetOf t2 ∩ rpidSetOf t3).card = 1 →
      (rpidSetOf t3).card = 1 →
      (iterationStep 85 85 p2 t2 (iterationStep 85 85 p1 t1
        initIterState)).popContinue = false ∧
      (iterationStep 85 85 p2 t2 (iterationStep 85 85 p1 t1
        initIterState)).timeContinue = true ∧
      (crawl_duplicate_rate_iteration 85 85 [(p1, t1), (p2, t2), (p3, t3)]
        initIterState).popContinue = false ∧
      (crawl_duplicate_rate_iteration 85 85 [(p1, t1), (p2, t2), (p3, t3)]
        initIterState).timeContinue = false ∧
      (crawl_duplicate_rate_iteration 85 85 [(p1, t1), (p2, t2), (p3, t3)]
        initIterState).allPop = p1 ++ p2 ∧
      crawl_duplicate_rate_iteration 85 85
          ([(p1, t1), (p2, t2), (p3, t3)] ++ [extra]) initIterState =
        crawl_duplicate_rate_iteration 85 85 [(p1, t1), (p2, t2), (p3, t3)]
          initIterState) := by
  constructor
  · intro A B hB
    rw [calculate_duplicate_rate, if_neg hB]
  intro p1 p2 p3 t1 t2 t3 extra hp1 hp2 ht1 ht2 ht3 hpc hpb htc htb2 htc3 htb3
  have hBp : rpidSetOf p2 ≠ ∅ := by
    intro h
    rw [h] at hpb
    simp at hpb
  have hBt2 : rpidSetOf t2 ≠ ∅ := by
    intro h
    rw [h] at htb2
    simp at htb2
  have hBt3 : rpidSetOf t3 ≠ ∅ := by
    intro h
    rw [h] at htb3
    simp at htb3
  have hrp : calculate_duplicate_rate (rpidSetOf p1) (rpidSetOf p2) = 90 := by
    rw [calculate_duplicate_rate, if_neg hBp, hpc, hpb]
    norm_num
  have hrt : calculate_duplicate_rate (rpidSetOf t1) (rpidSetOf t2) = 0 := by
    rw [calculate_duplicate_rate, if_neg hBt2, htc, htb2]
    norm_num
  have hrt3 : calculate_duplicate_rate (rpidSetOf t2) (rpidSetOf t3)
      = 100 := by
    rw [calculate_duplicate_rate, if_neg hBt3, htc3, htb3]
    norm_num
  have hyes : (85 : ℚ) ≤ 90 := by norm_num
  have hno : ¬ (85 : ℚ) ≤ 0 := by norm_num
  have hyes100 : (85 : ℚ) ≤ 100 := by norm_num
  have hs1 : iterationStep 85 85 p1 t1 initIterState =
      { popContinue := true, timeContinue := true,
        popHist := [rpidSetOf p1], timeHist := [rpidSetOf t1],
        allPop := p1, allTime := t1 } := by
    simp [iterationStep, initIterState, hp1, ht1]
  have hs2 : iterationStep 85 85 p2 t2
      { popContinue := true, timeContinue := true,
        popHist := [rpidSetOf p1], timeHist := [rpidSetOf t1],
        allPop := p1, allTime := t1 } =
      { popContinue := false, timeContinue := true,
        popHist := [rpidSetOf p1, rpidSetOf p2],
        timeHist := [rpidSetOf t1, rpidSetOf t2],
        allPop := p1 ++ p2, allTime := t1 ++ t2 } := by
    simp [iterationStep, hp2, ht2, hrp, hrt, hyes, hno]
  have hs3 : iterationStep 85 85 p3 t3
      { popContinue := false, timeContinue := true,
        popHist := [rpidSetOf p1, rpidSetOf p2],
        timeHist := [rpidSetOf t1, rpidSetOf t2],
        allPop := p1 ++ p2, allTime := t1 ++ t2 } =
      { popContinue := false, timeContinue := false,
        popHist := [rpidSetOf p1, rpidSetOf p2],
        timeHist := [rpidSetOf t1, rpidSetOf t2, rpidSetOf t3],
        allPop := p1 ++ p2, allTime := (t1 ++ t2) ++ t3 } := by
    simp [iterationStep, ht3, hrt3, hyes100]
  have hloop : crawl_duplicate_rate_iteration 85 85
      [(p1, t1), (p2, t2), (p3, t3)] initIterState =
      { popContinue := false, timeContinue := false,
        popHist := [rpidSetOf p1, rpidSetOf p2],
        timeHist := [rpidSetOf t1, rpidSetOf t2, rpidSetOf t3],
        allPop := p1 ++ p2, allTime := (t1 ++ t2) ++ t3 } := by
    rw [crawl_duplicate_rate_iteration, if_pos (by simp [initIterState]),
      hs1]
    rw [crawl_duplicate_rate_iteration, if_pos (by simp), hs2]
    rw [crawl_duplicate_rate_iteration, if_pos (by simp), hs3]
    rw [crawl_duplicate_rate_iteration]
  refine ⟨?_, ?_, ?_, ?_, ?_, ?_⟩
  · rw [hs1, hs2]
  · rw [hs1, hs2]
  · rw [hloop]
  · rw [hloop]
  · rw [hloop]
  · rw [show ([(p1, t1), (p2, t2), (p3, t3)] ++ [extra]) =
      [(p1, t1), (p2, t2), (p3, t3), extra] from rfl]
    rw [crawl_duplicate_rate_iteration, if_pos (by simp [initIterState]),
      hs1]
    rw [crawl_duplicate_rate_iteration, if_pos (by simp), hs2]
    rw [crawl_duplicate_rate_iteration, if_pos (by simp), hs3]
    rw [crawl_duplicate_rate_iteration, if_neg (by simp)]
    rw [hloop]

set_option maxRecDepth 20000 in
theorem overlap_threshold_amended_witness :
    calculate_duplicate_rate ids100A ids100B =
      ((ids100A ∩ ids100B).card : ℚ) / (ids100B.card : ℚ) * 100 ∧
    ((iterationStep 85 85 popRound2 timeRound2 (iterationStep 85 85
      popRound1 timeRound1 initIterState)).popContinue = false ∧
     (iterationStep 85 85 popRound2 timeRound2 (iterationStep 85 85
      popRound1 timeRound1 initIterState)).timeContinue = true ∧
     (crawl_duplicate_rate_iteration 85 85
       [(popRound1, timeRound1), (popRound2, timeRound2),
        (popRound1, timeRound3)] initIterState).popContinue = false ∧
     (crawl_duplicate_rate_iteration 85 85
       [(popRound1, timeRound1), (popRound2, timeRound2),
        (popRound1, timeRound3)] initIterState).timeContinue = false ∧
     (crawl_duplicate_rate_iteration 85 85
       [(popRound1, timeRound1), (popRound2, timeRound2),
        (popRound1, timeRound3)] initIterState).allPop
       = popRound1 ++ popRound2 ∧
     crawl_duplicate_rate_iteration 85 85
         ([(popRound1, timeRound1), (popRound2, timeRound2),
           (popRound1, timeRound3)] ++ [(popRound1, timeRound1)])
         initIterState =
       crawl_duplicate_rate_iteration 85 85
         [(popRound1, timeRound1), (popRound2, timeRound2),
          (popRound1, timeRound3)] initIterState) :=
  ⟨overlap_threshold_amended.1 ids100A ids100B (by decide),
   overlap_threshold_amended.2 popRound1 popRound2 popRound1 timeRound1
     timeRound2 timeRound3 (popRound1, timeRound1) (by decide) (by decide)
     (by decide) (by decide) (by decide) (by decide) (by decide)
     (by decide) (by decide) (by decide) (by decide)⟩

end FBC
